import Mathlib

/-!
Shallow embedding of the retail point-of-sale billing/stock core
(`src/services/stockService.ts`, `src/services/billingService.ts`,
`src/routes/billing` checkout handler) of the levich_retailAssist
repository, together with proofs about its checkout, stock and
cancellation behaviour.

Modelling conventions:
* The relational store (Prisma/PostgreSQL) is a `Store` value holding the
  three tables as lists; `prisma.X.findUnique` becomes `List.find?`,
  `update` on a missing row fails (Prisma P2025) and is modelled with
  `Option`, `upsert` updates the matching row or appends a fresh one.
* JS numbers holding quantities are `Int` (the columns are SQL INTEGER and
  nothing stops them from going negative); money columns are `ℚ`
  (DECIMAL(10,2)); timestamps are `Nat`, passed in as a `now` argument.
* A thrown `Error` becomes `Except.error` with a typed constructor carrying
  the same information the thrown message carries.
-/

namespace RetailAssist

/-- One row of the `products` table (fields billing reads). -/
structure Product where
  id : Nat
  sku : String
  name : String
  price : ℚ
  active : Bool
  deriving Repr, DecidableEq

/-- One row of the `stocks` table (unique per `productId`). -/
structure StockRecord where
  productId : Nat
  quantity : Int
  receivedTotal : Int
  soldTotal : Int
  lastReceivedAt : Option Nat
  deriving Repr, DecidableEq

/-- One row of the `invoice_items` table, embedded in its parent invoice. -/
structure InvoiceItem where
  productId : Nat
  sku : String
  productName : String
  qty : Int
  unitPrice : ℚ
  lineTotal : ℚ
  deriving Repr, DecidableEq

/-- One row of the `invoices` table, owning its items. -/
structure Invoice where
  id : Nat
  invoiceNumber : Nat
  subtotal : ℚ
  grandTotal : ℚ
  paymentMethod : String
  idempotencyKey : String
  status : String
  createdAt : Nat
  items : List InvoiceItem
  deriving Repr, DecidableEq

/-- The transactional relational store: the three tables billing touches. -/
structure Store where
  products : List Product
  stocks : List StockRecord
  invoices : List Invoice
  deriving Repr, DecidableEq

/-- A shortfall entry of `checkStockAvailability`. -/
structure Shortfall where
  sku : String
  requested : Int
  available : Int
  deriving Repr, DecidableEq

/-- The errors the services throw (typed versions of the thrown messages). -/
inductive BillingError where
  | emptyCart
  | missingPaymentMethod
  | invalidQuantity
  | productNotFound (sku : String)
  | inactiveProduct (sku : String)
  | insufficientStock (shortfalls : List Shortfall)
  | stockRowNotFound (sku : String)
  | storeFailure
  | invoiceNotFound (invoiceNumber : Nat)
  | alreadyCancelled (invoiceNumber : Nat)
  | invalidState (status : String)
  deriving Repr, DecidableEq

/-- A cart line of a checkout request. -/
structure CheckoutItem where
  sku : String
  qty : Int
  deriving Repr, DecidableEq

/-- `prisma.product.findUnique({ where: { sku } })`. -/
def findProductBySku (s : Store) (sku : String) : Option Product :=
  s.products.find? (fun p => p.sku = sku)

/-- `prisma.stock.findUnique`-style lookup by the unique `productId`. -/
def findStockByPid (s : Store) (pid : Nat) : Option StockRecord :=
  s.stocks.find? (fun r => r.productId = pid)

/-- Apply `f` to the stock row with the given `productId`, leaving the
other rows alone (the effect of a Prisma `update` on the `stocks` table). -/
def updateStockRows (stocks : List StockRecord) (pid : Nat)
    (f : StockRecord → StockRecord) : List StockRecord :=
  stocks.map (fun r => if r.productId = pid then f r else r)

/-- `tx.stock.update({ where: { productId } , data })`: Prisma throws
(P2025) when no row matches, so the missing-row case is `none`. -/
def stockUpdate (stocks : List StockRecord) (pid : Nat)
    (f : StockRecord → StockRecord) : Option (List StockRecord) :=
  match stocks.find? (fun r => r.productId = pid) with
  | none => none
  | some _ => some (updateStockRows stocks pid f)

/-- `prisma.stock.upsert({ where: { productId }, update, create })`. -/
def stockUpsert (stocks : List StockRecord) (pid : Nat)
    (f : StockRecord → StockRecord) (created : StockRecord) :
    List StockRecord :=
  match stocks.find? (fun r => r.productId = pid) with
  | none => stocks ++ [created]
  | some _ => updateStockRows stocks pid f

/-- `StockService.getStockBySku`: `none` when the product is unknown;
a product without a stock row reads as an all-zero record. -/
def getStockBySku (s : Store) (sku : String) : Option StockRecord :=
  match findProductBySku s sku with
  | none => none
  | some p =>
    match findStockByPid s p.id with
    | none => some { productId := p.id, quantity := 0, receivedTotal := 0,
                     soldTotal := 0, lastReceivedAt := none }
    | some r => some r

/-- `StockService.receiveStock`: validates `qty`, requires an active
product, then upserts the stock row. Returns the new store and the row. -/
def receiveStock (s : Store) (sku : String) (qty : Int) (now : Nat) :
    Except BillingError (Store × StockRecord) :=
  if qty ≤ 0 then .error .invalidQuantity
  else
    match findProductBySku s sku with
    | none => .error (.productNotFound sku)
    | some p =>
      if p.active = false then .error (.inactiveProduct sku)
      else
        let created : StockRecord :=
          { productId := p.id, quantity := qty, receivedTotal := qty,
            soldTotal := 0, lastReceivedAt := some now }
        let upd : StockRecord → StockRecord := fun r =>
          { r with quantity := r.quantity + qty,
                   receivedTotal := r.receivedTotal + qty,
                   lastReceivedAt := some now }
        let stocks := stockUpsert s.stocks p.id upd created
        match findStockByPid { s with stocks := stocks } p.id with
        | none => .error .storeFailure
        | some row => .ok ({ s with stocks := stocks }, row)

/-- `StockService.checkStockAvailability`: read-only scan collecting a
shortfall per line that is unknown or under-stocked. -/
def checkStockAvailability (s : Store) :
    List CheckoutItem → List Shortfall
  | [] => []
  | item :: rest =>
    match getStockBySku s item.sku with
    | none =>
      { sku := item.sku, requested := item.qty, available := 0 } ::
        checkStockAvailability s rest
    | some stock =>
      if stock.quantity < item.qty then
        { sku := item.sku, requested := item.qty,
          available := stock.quantity } :: checkStockAvailability s rest
      else
        checkStockAvailability s rest

/-- `StockService.decreaseStock`: requires the product and its stock row,
rejects when the on-hand quantity is below `qty`, else decrements
`quantity` and increments `soldTotal`. -/
def decreaseStock (s : Store) (sku : String) (qty : Int) :
    Except BillingError Store :=
  match findProductBySku s sku with
  | none => .error (.stockRowNotFound sku)
  | some p =>
    match findStockByPid s p.id with
    | none => .error (.stockRowNotFound sku)
    | some row =>
      if row.quantity < qty then
        .error (.insufficientStock
          [{ sku := sku, requested := qty, available := row.quantity }])
      else
        let stocks := updateStockRows s.stocks p.id (fun r =>
          { r with quantity := r.quantity - qty,
                   soldTotal := r.soldTotal + qty })
        .ok { s with stocks := stocks }

/-- `StockService.increaseStock`: requires the product; upserts the stock
row, incrementing `quantity` and decrementing `soldTotal`, or creating
`quantity := qty, receivedTotal := 0, soldTotal := 0` when absent. -/
def increaseStock (s : Store) (sku : String) (qty : Int) :
    Except BillingError Store :=
  match findProductBySku s sku with
  | none => .error (.productNotFound sku)
  | some p =>
    let stocks := stockUpsert s.stocks p.id
      (fun r => { r with quantity := r.quantity + qty,
                         soldTotal := r.soldTotal - qty })
      { productId := p.id, quantity := qty, receivedTotal := 0,
        soldTotal := 0, lastReceivedAt := none }
    .ok { s with stocks := stocks }

/-- One formatted line of `formatInvoiceResponse` (drops `productId`). -/
structure ItemView where
  sku : String
  productName : String
  qty : Int
  unitPrice : ℚ
  lineTotal : ℚ
  deriving Repr, DecidableEq

/-- The value `BillingService.formatInvoiceResponse` returns. -/
structure InvoiceResponse where
  id : Nat
  invoiceNumber : Nat
  subtotal : ℚ
  grandTotal : ℚ
  paymentMethod : String
  idempotencyKey : String
  newInvoice : Bool
  status : String
  createdAt : Nat
  items : List ItemView
  deriving Repr, DecidableEq

/-- `BillingService.formatInvoiceResponse`. -/
def formatInvoiceResponse (inv : Invoice) (newInvoice : Bool) :
    InvoiceResponse :=
  { id := inv.id, invoiceNumber := inv.invoiceNumber,
    subtotal := inv.subtotal, grandTotal := inv.grandTotal,
    paymentMethod := inv.paymentMethod,
    idempotencyKey := inv.idempotencyKey, newInvoice := newInvoice,
    status := inv.status, createdAt := inv.createdAt,
    items := inv.items.map (fun it =>
      { sku := it.sku, productName := it.productName, qty := it.qty,
        unitPrice := it.unitPrice, lineTotal := it.lineTotal }) }

/-- The `invoiceNumber` of the `findFirst(orderBy invoiceNumber desc)` row. -/
def maxInvoiceNumber : List Invoice → Option Nat
  | [] => none
  | inv :: rest =>
    match maxInvoiceNumber rest with
    | none => some inv.invoiceNumber
    | some m => some (max inv.invoiceNumber m)

/-- `BillingService.getNextInvoiceNumber`: last number + 1, or 1001. -/
def getNextInvoiceNumber (s : Store) : Nat :=
  match maxInvoiceNumber s.invoices with
  | none => 1001
  | some m => m + 1

/-- `prisma.invoice.findUnique({ where: { idempotencyKey } })`. -/
def findInvoiceByKey (s : Store) (key : String) : Option Invoice :=
  s.invoices.find? (fun inv => inv.idempotencyKey = key)

/-- `prisma.invoice.findUnique({ where: { invoiceNumber } })`. -/
def findInvoiceByNumber (s : Store) (n : Nat) : Option Invoice :=
  s.invoices.find? (fun inv => inv.invoiceNumber = n)

/-- The per-line body of the checkout transaction in
`BillingService.createInvoice`: product lookup (authoritative existence and
active checks), line-total computation, invoice-item snapshot, and the raw
`tx.stock.update` decrement of `quantity` / increment of `soldTotal`.
Returns the items, the running subtotal and the stock table after all
decrements. -/
def processLines (s : Store) (stocks : List StockRecord) :
    List CheckoutItem →
    Except BillingError (List InvoiceItem × ℚ × List StockRecord)
  | [] => .ok ([], 0, stocks)
  | item :: rest =>
    match findProductBySku s item.sku with
    | none => .error (.productNotFound item.sku)
    | some p =>
      if p.active = false then .error (.inactiveProduct item.sku)
      else
        let lineTotal := p.price * (item.qty : ℚ)
        let invItem : InvoiceItem :=
          { productId := p.id, sku := p.sku, productName := p.name,
            qty := item.qty, unitPrice := p.price, lineTotal := lineTotal }
        match stockUpdate stocks p.id (fun r =>
            { r with quantity := r.quantity - item.qty,
                     soldTotal := r.soldTotal + item.qty }) with
        | none => .error .storeFailure
        | some stocks2 =>
          match processLines s stocks2 rest with
          | .error e => .error e
          | .ok (its, sub, stocksF) =>
            .ok (invItem :: its, lineTotal + sub, stocksF)

/-- `BillingService.createInvoice` (checkout): input validation, the
idempotency short-circuit, the advisory availability check, then the
atomic transaction creating the invoice with its items and decrementing
stock; on success the store reflects the committed transaction. -/
def createInvoice (s : Store) (items : List CheckoutItem)
    (paymentMethod : String) (idempotencyKey : String) (now : Nat) :
    Except BillingError (Store × InvoiceResponse) :=
  if items = [] then .error .emptyCart
  else if paymentMethod = "" then .error .missingPaymentMethod
  else
    match findInvoiceByKey s idempotencyKey with
    | some existing => .ok (s, formatInvoiceResponse existing false)
    | none =>
      if checkStockAvailability s items = [] then
        match processLines s s.stocks items with
        | .error e => .error e
        | .ok (invItems, subtotal, stocksF) =>
          let inv : Invoice :=
            { id := s.invoices.length,
              invoiceNumber := getNextInvoiceNumber s,
              subtotal := subtotal, grandTotal := subtotal,
              paymentMethod := paymentMethod,
              idempotencyKey := idempotencyKey, status := "paid",
              createdAt := now, items := invItems }
          .ok ({ s with stocks := stocksF,
                        invoices := s.invoices ++ [inv] },
               formatInvoiceResponse inv true)
      else .error (.insufficientStock (checkStockAvailability s items))

/-- The restore loop of `BillingService.cancelInvoice`: for each invoice
item a raw `tx.stock.update` incrementing `quantity` and decrementing
`soldTotal`. -/
def restoreLines (stocks : List StockRecord) :
    List InvoiceItem → Option (List StockRecord)
  | [] => some stocks
  | item :: rest =>
    match stockUpdate stocks item.productId (fun r =>
        { r with quantity := r.quantity + item.qty,
                 soldTotal := r.soldTotal - item.qty }) with
    | none => none
    | some stocks2 => restoreLines stocks2 rest

/-- `BillingService.cancelInvoice`: status checks, then the transaction
restoring stock for every item and marking the invoice cancelled. -/
def cancelInvoice (s : Store) (invoiceNumber : Nat) :
    Except BillingError (Store × InvoiceResponse) :=
  match findInvoiceByNumber s invoiceNumber with
  | none => .error (.invoiceNotFound invoiceNumber)
  | some inv =>
    if inv.status = "cancelled" then .error (.alreadyCancelled invoiceNumber)
    else if inv.status ≠ "paid" then .error (.invalidState inv.status)
    else
      match restoreLines s.stocks inv.items with
      | none => .error .storeFailure
      | some stocks2 =>
        let cancelled : Invoice := { inv with status := "cancelled" }
        let invoices := s.invoices.map (fun i =>
          if i.id = inv.id then cancelled else i)
        .ok ({ s with stocks := stocks2, invoices := invoices },
             formatInvoiceResponse cancelled false)

/-- The `period` field of `getInvoiceStats`. -/
inductive StatsPeriod where
  | allTime
  | range (fromDate toDate : Nat)
  deriving Repr, DecidableEq

/-- The value `BillingService.getInvoiceStats` returns. -/
structure InvoiceStats where
  totalInvoices : Nat
  totalRevenue : ℚ
  cancelledInvoices : Nat
  period : StatsPeriod
  deriving Repr, DecidableEq

/-- The `dateFilter` of `getInvoiceStats`: a `createdAt` range only when
both bounds are supplied, otherwise no filtering at all. -/
def inDateFilter (fromDate toDate : Option Nat) (inv : Invoice) : Bool :=
  match fromDate, toDate with
  | some f, some t => decide (f ≤ inv.createdAt) && decide (inv.createdAt ≤ t)
  | _, _ => true

/-- `BillingService.getInvoiceStats`: paid count, paid revenue sum and
cancelled count over the (possibly) date-filtered invoices. -/
def getInvoiceStats (s : Store) (fromDate toDate : Option Nat) :
    InvoiceStats :=
  let paid := s.invoices.filter (fun inv =>
    decide (inv.status = "paid") && inDateFilter fromDate toDate inv)
  let cancelled := s.invoices.filter (fun inv =>
    decide (inv.status = "cancelled") && inDateFilter fromDate toDate inv)
  { totalInvoices := paid.length,
    totalRevenue := (paid.map (fun inv => inv.grandTotal)).sum,
    cancelledInvoices := cancelled.length,
    period :=
      match fromDate, toDate with
      | some f, some t => .range f t
      | _, _ => .allTime }

/-- HTTP status the billing router's error handler maps a thrown service
error to (string matching on the message in the source). -/
def errorHttpStatus : BillingError → Nat
  | .insufficientStock _ => 400
  | .productNotFound _ => 400
  | .stockRowNotFound _ => 400
  | .invoiceNotFound _ => 400
  | .inactiveProduct _ => 400
  | .alreadyCancelled _ => 400
  | .invalidState _ => 400
  | _ => 500

/-- Outcome of the `POST /billing/checkout` route handler. -/
structure HandlerResult where
  httpStatus : Nat
  store : Store
  response : Option InvoiceResponse
  deriving Repr, DecidableEq

/-- The per-item validation loop of the checkout route handler: every
line must carry a non-empty `sku` and a positive `qty`. -/
def checkoutItemsWellFormed (items : List CheckoutItem) : Bool :=
  items.all (fun it => decide (it.sku ≠ "") && decide (0 < it.qty))

/-- The `POST /billing/checkout` handler: request validation (non-empty
cart, payment method present, well-formed lines) answered with 400 before
the service is invoked, then `createInvoice`, 201 for a new invoice and
200 for an idempotency replay. -/
def checkoutHandler (s : Store) (items : List CheckoutItem)
    (paymentMethod : String) (idempotencyKey : String) (now : Nat) :
    HandlerResult :=
  if items = [] then { httpStatus := 400, store := s, response := none }
  else if paymentMethod = "" then
    { httpStatus := 400, store := s, response := none }
  else if checkoutItemsWellFormed items = false then
    { httpStatus := 400, store := s, response := none }
  else
    match createInvoice s items paymentMethod idempotencyKey now with
    | .error e =>
      { httpStatus := errorHttpStatus e, store := s, response := none }
    | .ok (s2, resp) =>
      { httpStatus := if resp.newInvoice then 201 else 200,
        store := s2, response := some resp }

/-- The steady-state stock relation of the spec. -/
def balanced (r : StockRecord) : Prop :=
  r.quantity = r.receivedTotal - r.soldTotal

instance (r : StockRecord) : Decidable (balanced r) := by
  unfold balanced; infer_instance

/-- Every stock row of the store satisfies the steady-state relation. -/
def allBalanced (s : Store) : Prop := ∀ r ∈ s.stocks, balanced r

instance (s : Store) : Decidable (allBalanced s) := by
  unfold allBalanced; exact List.decidableBAll _ _

/-- The availability a cart line's `sku` is compared against: a missing
product or a missing stock row reads as 0. -/
def availableQty (s : Store) (sku : String) : Int :=
  match getStockBySku s sku with
  | none => 0
  | some r => r.quantity

/-- Total quantity the given invoice items hold against one product row. -/
def qtySumFor (items : List InvoiceItem) (pid : Nat) : Int :=
  ((items.filter (fun it => it.productId = pid)).map (fun it => it.qty)).sum

theorem find?_append_none {α : Type} (p : α → Bool) {l1 : List α}
    (l2 : List α) (h : l1.find? p = none) :
    (l1 ++ l2).find? p = l2.find? p := by
  rw [List.find?_append, h, Option.none_or]

theorem find?_updateStockRows (stocks : List StockRecord) (pid qid : Nat)
    (f : StockRecord → StockRecord)
    (hf : ∀ r, (f r).productId = r.productId) :
    (updateStockRows stocks pid f).find? (fun r => r.productId = qid) =
      (stocks.find? (fun r => r.productId = qid)).map
        (fun r => if r.productId = pid then f r else r) := by
  induction stocks with
  | nil => rfl
  | cons r rest ih =>
    unfold updateStockRows at ih ⊢
    simp only [List.map_cons]
    have hid : (if r.productId = pid then f r else r).productId =
        r.productId := by
      by_cases hp : r.productId = pid
      · simp [hp, hf r]
      · simp [hp]
    by_cases hq : r.productId = qid
    · rw [List.find?_cons_of_pos _
            (by simp only [decide_eq_true_eq, hid]; exact hq),
          List.find?_cons_of_pos _ (by simp [hq])]
      simp
    · rw [List.find?_cons_of_neg _
            (by simp only [decide_eq_true_eq, hid]; exact hq),
          List.find?_cons_of_neg _ (by simp [hq]), ih]

theorem updateStockRows_balanced (stocks : List StockRecord) (pid : Nat)
    (f : StockRecord → StockRecord)
    (hf : ∀ r, balanced r → balanced (f r))
    (h : ∀ r ∈ stocks, balanced r) :
    ∀ r ∈ updateStockRows stocks pid f, balanced r := by
  intro r hr
  unfold updateStockRows at hr
  obtain ⟨r0, hr0, hmap⟩ := List.mem_map.mp hr
  by_cases hp : r0.productId = pid
  · rw [if_pos hp] at hmap
    exact hmap ▸ hf r0 (h r0 hr0)
  · rw [if_neg hp] at hmap
    exact hmap ▸ h r0 hr0

theorem stockUpdate_some (stocks : List StockRecord) (pid : Nat)
    (f : StockRecord → StockRecord) (stocks2 : List StockRecord)
    (h : stockUpdate stocks pid f = some stocks2) :
    stocks2 = updateStockRows stocks pid f := by
  unfold stockUpdate at h
  cases hfind : stocks.find? (fun r => r.productId = pid) with
  | none => rw [hfind] at h; cases h
  | some r => rw [hfind] at h; cases h; rfl

theorem stockUpdate_isSome (stocks : List StockRecord) (pid : Nat)
    (f : StockRecord → StockRecord)
    (h : (stocks.find? (fun r => r.productId = pid)).isSome) :
    stockUpdate stocks pid f = some (updateStockRows stocks pid f) := by
  unfold stockUpdate
  cases hfind : stocks.find? (fun r => r.productId = pid) with
  | none => rw [hfind] at h; cases h
  | some r => rfl

theorem processLines_balanced (s : Store) (items : List CheckoutItem)
    (stocks : List StockRecord) (its : List InvoiceItem) (sub : ℚ)
    (stocksF : List StockRecord)
    (h : processLines s stocks items = .ok (its, sub, stocksF))
    (hb : ∀ r ∈ stocks, balanced r) :
    ∀ r ∈ stocksF, balanced r := by
  induction items generalizing stocks its sub stocksF with
  | nil =>
    simp only [processLines] at h
    cases h
    exact hb
  | cons item rest ih =>
    simp only [processLines] at h
    cases hp : findProductBySku s item.sku with
    | none => rw [hp] at h; cases h
    | some p =>
      rw [hp] at h
      dsimp only at h
      by_cases hact : p.active = false
      · rw [if_pos hact] at h; cases h
      · rw [if_neg hact] at h
        cases hu : stockUpdate stocks p.id (fun r =>
            { r with quantity := r.quantity - item.qty,
                     soldTotal := r.soldTotal + item.qty }) with
        | none => rw [hu] at h; cases h
        | some stocks2 =>
          rw [hu] at h
          dsimp only at h
          cases hrec : processLines s stocks2 rest with
          | error e => rw [hrec] at h; cases h
          | ok trip =>
            obtain ⟨its2, sub2, stocksF2⟩ := trip
            rw [hrec] at h
            dsimp only at h
            injection h with h1
            injection h1 with ha hb2
            injection hb2 with hsub hstocks
            rw [← hstocks]
            refine ih stocks2 its2 sub2 stocksF2 hrec ?_
            rw [stockUpdate_some _ _ _ _ hu]
            refine updateStockRows_balanced _ _ _ ?_ hb
            intro r hr
            unfold balanced at hr ⊢
            simp only
            omega

theorem processLines_items (s : Store) (items : List CheckoutItem)
    (stocks : List StockRecord) (its : List InvoiceItem) (sub : ℚ)
    (stocksF : List StockRecord)
    (h : processLines s stocks items = .ok (its, sub, stocksF)) :
    (∀ it ∈ its, it.lineTotal = it.unitPrice * (it.qty : ℚ) ∧
       ∃ p, findProductBySku s it.sku = some p ∧ it.unitPrice = p.price ∧
         it.productName = p.name ∧ p.active = true) ∧
    sub = (its.map (fun it => it.lineTotal)).sum := by
  induction items generalizing stocks its sub stocksF with
  | nil =>
    simp only [processLines] at h
    cases h
    exact ⟨by simp, by simp⟩
  | cons item rest ih =>
    simp only [processLines] at h
    cases hp : findProductBySku s item.sku with
    | none => rw [hp] at h; cases h
    | some p =>
      rw [hp] at h
      dsimp only at h
      by_cases hact : p.active = false
      · rw [if_pos hact] at h; cases h
      · rw [if_neg hact] at h
        cases hu : stockUpdate stocks p.id (fun r =>
            { r with quantity := r.quantity - item.qty,
                     soldTotal := r.soldTotal + item.qty }) with
        | none => rw [hu] at h; cases h
        | some stocks2 =>
          rw [hu] at h
          dsimp only at h
          cases hrec : processLines s stocks2 rest with
          | error e => rw [hrec] at h; cases h
          | ok trip =>
            obtain ⟨its2, sub2, stocksF2⟩ := trip
            rw [hrec] at h
            dsimp only at h
            injection h with h1
            injection h1 with ha hb2
            injection hb2 with hsub hstocks
            obtain ⟨hrest, hsubrest⟩ := ih stocks2 its2 sub2 stocksF2 hrec
            subst ha
            constructor
            · intro it hit
              rcases List.mem_cons.mp hit with hhd | htl
              · subst hhd
                refine ⟨rfl, p, ?_, rfl, rfl, by simpa using hact⟩
                have hsku : p.sku = item.sku := by
                  have := List.find?_some hp
                  simpa using this
                rw [← hsku] at hp
                exact hp
              · exact hrest it htl
            · subst hsub
              simp [hsubrest]

theorem StockRecord.ext2 (a b : StockRecord)
    (h1 : a.productId = b.productId) (h2 : a.quantity = b.quantity)
    (h3 : a.receivedTotal = b.receivedTotal) (h4 : a.soldTotal = b.soldTotal)
    (h5 : a.lastReceivedAt = b.lastReceivedAt) : a = b := by
  cases a; cases b; simp_all

theorem qtySumFor_cons (it : InvoiceItem) (rest : List InvoiceItem)
    (pid : Nat) :
    qtySumFor (it :: rest) pid =
      (if it.productId = pid then it.qty else 0) + qtySumFor rest pid := by
  unfold qtySumFor
  rw [List.filter_cons]
  by_cases hp : it.productId = pid
  · simp [hp]
  · simp [hp]

theorem restoreLines_eq (items : List InvoiceItem)
    (stocks : List StockRecord)
    (h : ∀ it ∈ items,
      ((stocks.find? (fun r => r.productId = it.productId)).isSome)) :
    restoreLines stocks items = some (stocks.map (fun r =>
      { r with quantity := r.quantity + qtySumFor items r.productId,
               soldTotal := r.soldTotal - qtySumFor items r.productId })) := by
  induction items generalizing stocks with
  | nil =>
    simp only [restoreLines, qtySumFor, List.filter_nil, List.map_nil,
      List.sum_nil, Int.add_zero, Int.sub_zero]
    exact congrArg some (List.map_id stocks).symm
  | cons it rest ih =>
    simp only [restoreLines]
    rw [stockUpdate_isSome _ _ _ (h it (List.mem_cons_self it rest))]
    dsimp only
    rw [ih]
    · congr 1
      unfold updateStockRows
      rw [List.map_map]
      apply List.map_congr_left
      intro r hr
      by_cases hp : r.productId = it.productId
      · simp only [Function.comp_apply, if_pos hp]
        apply StockRecord.ext2
        · rfl
        · dsimp only
          rw [qtySumFor_cons, if_pos hp.symm]
          omega
        · rfl
        · dsimp only
          rw [qtySumFor_cons, if_pos hp.symm]
          omega
        · rfl
      · simp only [Function.comp_apply, if_neg hp]
        apply StockRecord.ext2
        · rfl
        · dsimp only
          rw [qtySumFor_cons, if_neg (fun hh => hp hh.symm)]
          omega
        · rfl
        · dsimp only
          rw [qtySumFor_cons, if_neg (fun hh => hp hh.symm)]
          omega
        · rfl
    · intro it2 hit2
      rw [find?_updateStockRows stocks it.productId it2.productId
            (fun r => { r with quantity := r.quantity + it.qty,
                               soldTotal := r.soldTotal - it.qty })
            (fun r => rfl)]
      have hpre := h it2 (List.mem_cons_of_mem _ hit2)
      cases hf : stocks.find? (fun r => r.productId = it2.productId) with
      | none => rw [hf] at hpre; cases hpre
      | some r => simp

theorem maxInvoiceNumber_ge (l : List Invoice) (inv : Invoice)
    (hmem : inv ∈ l) :
    ∃ m, maxInvoiceNumber l = some m ∧ inv.invoiceNumber ≤ m := by
  induction l with
  | nil => cases hmem
  | cons a rest ih =>
    rcases List.mem_cons.mp hmem with hhd | htl
    · subst hhd
      cases hr : maxInvoiceNumber rest with
      | none => exact ⟨inv.invoiceNumber, by simp [maxInvoiceNumber, hr], le_refl _⟩
      | some m =>
        exact ⟨max inv.invoiceNumber m, by simp [maxInvoiceNumber, hr],
          le_max_left _ _⟩
    · obtain ⟨m, hm, hle⟩ := ih htl
      exact ⟨max a.invoiceNumber m, by simp [maxInvoiceNumber, hm],
        le_trans hle (le_max_right _ _)⟩

theorem maxInvoiceNumber_mem (l : List Invoice) (m : Nat)
    (h : maxInvoiceNumber l = some m) :
    ∃ inv ∈ l, inv.invoiceNumber = m := by
  induction l generalizing m with
  | nil => cases h
  | cons a rest ih =>
    simp only [maxInvoiceNumber] at h
    cases hr : maxInvoiceNumber rest with
    | none =>
      rw [hr] at h
      injection h with h1
      exact ⟨a, List.mem_cons_self a rest, h1⟩
    | some m2 =>
      rw [hr] at h
      injection h with h1
      by_cases hcmp : a.invoiceNumber ≤ m2
      · obtain ⟨inv, hmem, heq⟩ := ih m2 hr
        refine ⟨inv, List.mem_cons_of_mem _ hmem, ?_⟩
        rw [heq, ← h1, max_eq_right hcmp]
      · refine ⟨a, List.mem_cons_self a rest, ?_⟩
        rw [← h1, max_eq_left (le_of_not_le hcmp)]

theorem createInvoice_ok_inversion (s : Store) (items : List CheckoutItem)
    (pm key : String) (now : Nat) (out : Store × InvoiceResponse)
    (h : createInvoice s items pm key now = .ok out)
    (hnew : out.2.newInvoice = true) :
    items ≠ [] ∧ pm ≠ "" ∧ findInvoiceByKey s key = none ∧
    checkStockAvailability s items = [] ∧
    ∃ its sub stocksF,
      processLines s s.stocks items = .ok (its, sub, stocksF) ∧
      out.1 = { s with stocks := stocksF,
                       invoices := s.invoices ++
                         [{ id := s.invoices.length,
                            invoiceNumber := getNextInvoiceNumber s,
                            subtotal := sub, grandTotal := sub,
                            paymentMethod := pm, idempotencyKey := key,
                            status := "paid", createdAt := now,
                            items := its }] } ∧
      out.2 = formatInvoiceResponse
        { id := s.invoices.length,
          invoiceNumber := getNextInvoiceNumber s, subtotal := sub,
          grandTotal := sub, paymentMethod := pm, idempotencyKey := key,
          status := "paid", createdAt := now, items := its } true := by
  unfold createInvoice at h
  by_cases h1 : items = []
  · rw [if_pos h1] at h; cases h
  · rw [if_neg h1] at h
    by_cases h2 : pm = ""
    · rw [if_pos h2] at h; cases h
    · rw [if_neg h2] at h
      cases hk : findInvoiceByKey s key with
      | some existing =>
        rw [hk] at h
        dsimp only at h
        injection h with h3
        rw [← h3] at hnew
        simp [formatInvoiceResponse] at hnew
      | none =>
        rw [hk] at h
        dsimp only at h
        by_cases h4 : checkStockAvailability s items = []
        · rw [if_pos h4] at h
          cases hpl : processLines s s.stocks items with
          | error e => rw [hpl] at h; cases h
          | ok trip =>
            obtain ⟨its, sub, stocksF⟩ := trip
            rw [hpl] at h
            dsimp only at h
            injection h with h5
            refine ⟨h1, h2, rfl, h4, its, sub, stocksF, rfl, ?_, ?_⟩
            · rw [← h5]
            · rw [← h5]
        · rw [if_neg h4] at h; cases h

theorem find?_invoices_after_cancel (invoices : List Invoice)
    (inv : Invoice) (n : Nat)
    (hfind : invoices.find? (fun i => i.invoiceNumber = n) = some inv)
    (hid : ∀ i ∈ invoices, i.id = inv.id → i = inv)
    (cancelled : Invoice)
    (hnum : cancelled.invoiceNumber = inv.invoiceNumber) :
    (invoices.map (fun i => if i.id = inv.id then cancelled else i)).find?
      (fun i => i.invoiceNumber = n) = some cancelled := by
  have hpredinv : inv.invoiceNumber = n := by
    have := List.find?_some hfind
    simpa using this
  induction invoices with
  | nil => cases hfind
  | cons a rest ih =>
    by_cases hpa : a.invoiceNumber = n
    · rw [List.find?_cons_of_pos _ (by simp [hpa])] at hfind
      injection hfind with h1
      subst h1
      simp only [List.map_cons, if_pos rfl]
      rw [List.find?_cons_of_pos _ (by simp [hnum, hpredinv])]
      simp
    · rw [List.find?_cons_of_neg _ (by simp [hpa])] at hfind
      simp only [List.map_cons]
      by_cases hida : a.id = inv.id
      · have ha := hid a (List.mem_cons_self a rest) hida
        exact absurd (ha ▸ hpredinv) hpa
      · rw [if_neg hida, List.find?_cons_of_neg _ (by simp [hpa])]
        exact ih hfind (fun i hi hie => hid i (List.mem_cons_of_mem _ hi) hie)

theorem restoreLines_balanced (items : List InvoiceItem)
    (stocks stocks2 : List StockRecord)
    (h : restoreLines stocks items = some stocks2)
    (hb : ∀ r ∈ stocks, balanced r) : ∀ r ∈ stocks2, balanced r := by
  induction items generalizing stocks with
  | nil =>
    simp only [restoreLines] at h
    cases h
    exact hb
  | cons it rest ih =>
    simp only [restoreLines] at h
    cases hu : stockUpdate stocks it.productId (fun r =>
        { r with quantity := r.quantity + it.qty,
                 soldTotal := r.soldTotal - it.qty }) with
    | none => rw [hu] at h; cases h
    | some stocksMid =>
      rw [hu] at h
      refine ih stocksMid h ?_
      rw [stockUpdate_some _ _ _ _ hu]
      refine updateStockRows_balanced _ _ _ ?_ hb
      intro r hr
      unfold balanced at hr ⊢
      simp only
      omega

theorem createInvoice_ok_stocks (s : Store) (items : List CheckoutItem)
    (pm key : String) (now : Nat) (s2 : Store) (r : InvoiceResponse)
    (h : createInvoice s items pm key now = .ok (s2, r)) :
    s2.stocks = s.stocks ∨
    ∃ its sub, processLines s s.stocks items = .ok (its, sub, s2.stocks) := by
  unfold createInvoice at h
  by_cases h1 : items = []
  · rw [if_pos h1] at h; cases h
  · rw [if_neg h1] at h
    by_cases h2 : pm = ""
    · rw [if_pos h2] at h; cases h
    · rw [if_neg h2] at h
      cases hk : findInvoiceByKey s key with
      | some existing =>
        rw [hk] at h
        dsimp only at h
        injection h with h3
        injection h3 with ha hb2
        subst ha
        left
        rfl
      | none =>
        rw [hk] at h
        dsimp only at h
        by_cases h4 : checkStockAvailability s items = []
        · rw [if_pos h4] at h
          cases hpl : processLines s s.stocks items with
          | error e => rw [hpl] at h; cases h
          | ok trip =>
            obtain ⟨its, sub, stocksF⟩ := trip
            rw [hpl] at h
            dsimp only at h
            injection h with h5
            injection h5 with ha hb2
            subst ha
            right
            exact ⟨its, sub, rfl⟩
        · rw [if_neg h4] at h; cases h

/-- A concrete product (the scenario SKU of the spec). -/
def bisParProduct : Product :=
  { id := 1, sku := "BISPAR800G", name := "Parle-G 800g", price := 10,
    active := true }

/-- Store with 100 units on hand for the product. -/
def demoStore : Store :=
  { products := [bisParProduct],
    stocks := [{ productId := 1, quantity := 100, receivedTotal := 100,
                 soldTotal := 0, lastReceivedAt := some 0 }],
    invoices := [] }

/-- Store with 90 units on hand (the shortfall scenario of the spec). -/
def demoStore90 : Store :=
  { products := [bisParProduct],
    stocks := [{ productId := 1, quantity := 90, receivedTotal := 100,
                 soldTotal := 10, lastReceivedAt := some 0 }],
    invoices := [] }

/-- Store holding the product but no stock row at all. -/
def demoStoreNoRow : Store :=
  { products := [bisParProduct], stocks := [], invoices := [] }

/-- Store with 30 units on hand, in balance (30 = 40 - 10). -/
def demoStore30 : Store :=
  { products := [bisParProduct],
    stocks := [{ productId := 1, quantity := 30, receivedTotal := 40,
                 soldTotal := 10, lastReceivedAt := some 0 }],
    invoices := [] }

/-- A cart repeating one SKU: each line passes the advisory availability
check against the same snapshot, but the decrements add up past it. -/
def repeatedSkuCart : List CheckoutItem :=
  [{ sku := "BISPAR800G", qty := 60 }, { sku := "BISPAR800G", qty := 60 }]

/-- A smaller repeated-SKU cart for the invariants counterexample. -/
def repeatedSkuCartSmall : List CheckoutItem :=
  [{ sku := "BISPAR800G", qty := 20 }, { sku := "BISPAR800G", qty := 20 }]

/-- Claim C2 counterexample: the in-transaction per-line decrement of
`createInvoice` is an unguarded relative update; on a cart whose second
line finds only 40 units on hand (after the first line took 60 of 100) the
transaction does not fail — it commits an invoice and a stock quantity of
-20. -/
theorem checkout_decrement_commits_negative :
    ∃ out, createInvoice demoStore repeatedSkuCart "cash" "key-c2" 5 =
        .ok out ∧
      findStockByPid out.1 1 =
        some { productId := 1, quantity := -20, receivedTotal := 100,
               soldTotal := 120, lastReceivedAt := some 0 } ∧
      out.2.status = "paid" :=
  ⟨_, rfl, rfl, rfl⟩

/-- Claim C2 (amended): the stock-service `decreaseStock` does reject with
`InsufficientStock` when the on-hand quantity is below the requested
quantity — but checkout's transaction does not invoke it. -/
theorem decreaseStock_rejects_shortfall (s : Store) (sku : String)
    (qty : Int) (p : Product) (row : StockRecord)
    (hp : findProductBySku s sku = some p)
    (hr : findStockByPid s p.id = some row)
    (hlt : row.quantity < qty) :
    decreaseStock s sku qty = .error (.insufficientStock
      [{ sku := sku, requested := qty, available := row.quantity }]) := by
  unfold decreaseStock
  rw [hp]
  dsimp only
  rw [hr]
  dsimp only
  rw [if_pos hlt]

/-- Witness for the amended claim C2 at the spec scenario numbers. -/
theorem decreaseStock_rejects_shortfall_witness :
    decreaseStock demoStore90 "BISPAR800G" 1000 =
      .error (.insufficientStock
        [{ sku := "BISPAR800G", requested := 1000, available := 90 }]) :=
  decreaseStock_rejects_shortfall demoStore90 "BISPAR800G" 1000 bisParProduct
    { productId := 1, quantity := 90, receivedTotal := 100, soldTotal := 10,
      lastReceivedAt := some 0 } rfl rfl (by decide)

/-- Claim C4 counterexample: `increaseStock`'s create-if-absent branch
creates `quantity = qty, receivedTotal = 0, soldTotal = 0`, violating
`quantity = receivedTotal - soldTotal`; and a checkout on a repeated-SKU
cart drives a quantity below zero. -/
theorem stock_invariant_counterexample :
    (∃ s2, increaseStock demoStoreNoRow "BISPAR800G" 5 = .ok s2 ∧
       findStockByPid s2 1 =
         some { productId := 1, quantity := 5, receivedTotal := 0,
                soldTotal := 0, lastReceivedAt := none } ∧
       ¬ balanced { productId := 1, quantity := 5, receivedTotal := 0,
                    soldTotal := 0, lastReceivedAt := none }) ∧
    (∃ out, createInvoice demoStore30 repeatedSkuCartSmall "cash" "key-c4"
        3 = .ok out ∧
       findStockByPid out.1 1 =
         some { productId := 1, quantity := -10, receivedTotal := 40,
                soldTotal := 50, lastReceivedAt := some 0 } ∧
       (-10 : Int) < 0) :=
  ⟨⟨_, rfl, rfl, by decide⟩, ⟨_, rfl, rfl, by decide⟩⟩

/-- Claim C4 (amended): starting from a store whose stock rows satisfy
`quantity = receivedTotal - soldTotal`, receiving stock, a successful
checkout, a successful cancellation, and `increaseStock` on an existing
row all preserve the relation; only `increaseStock`'s create-if-absent
branch breaks it, and `quantity ≥ 0` is not enforced by the checkout
decrement. -/
theorem stock_balance_preserved (s : Store) (hb : allBalanced s) :
    (∀ sku qty now s2 row,
      receiveStock s sku qty now = .ok (s2, row) → allBalanced s2) ∧
    (∀ items pm key now s2 r,
      createInvoice s items pm key now = .ok (s2, r) → allBalanced s2) ∧
    (∀ n s2 r, cancelInvoice s n = .ok (s2, r) → allBalanced s2) ∧
    (∀ sku qty s2 p, findProductBySku s sku = some p →
      (findStockByPid s p.id).isSome →
      increaseStock s sku qty = .ok s2 → allBalanced s2) := by
  refine ⟨?_, ?_, ?_, ?_⟩
  · intro sku qty now s2 row h
    unfold receiveStock at h
    by_cases h1 : qty ≤ 0
    · rw [if_pos h1] at h; cases h
    · rw [if_neg h1] at h
      cases hp : findProductBySku s sku with
      | none => rw [hp] at h; cases h
      | some p =>
        rw [hp] at h
        dsimp only at h
        by_cases h2 : p.active = false
        · rw [if_pos h2] at h; cases h
        · rw [if_neg h2] at h
          split at h
          · cases h
          · injection h with h3
            injection h3 with h4 h5
            rw [← h4]
            intro r hr
            unfold stockUpsert at hr
            dsimp only at hr
            cases hfind : s.stocks.find? (fun r0 => r0.productId = p.id) with
            | none =>
              rw [hfind] at hr
              rcases List.mem_append.mp hr with hold | hnew
              · exact hb r hold
              · rcases List.mem_singleton.mp hnew with rfl
                unfold balanced
                simp only
                omega
            | some r0 =>
              rw [hfind] at hr
              refine updateStockRows_balanced s.stocks p.id _ ?_ hb r hr
              intro r1 hr1
              unfold balanced at hr1 ⊢
              simp only
              omega
  · intro items pm key now s2 r h
    rcases createInvoice_ok_stocks s items pm key now s2 r h with
      heq | ⟨its, sub, hpl⟩
    · intro r0 hr0
      rw [heq] at hr0
      exact hb r0 hr0
    · exact processLines_balanced s items s.stocks its sub s2.stocks hpl hb
  · intro n s2 r h
    unfold cancelInvoice at h
    cases hfind : findInvoiceByNumber s n with
    | none => rw [hfind] at h; cases h
    | some inv =>
      rw [hfind] at h
      dsimp only at h
      by_cases h1 : inv.status = "cancelled"
      · rw [if_pos h1] at h; cases h
      · rw [if_neg h1] at h
        by_cases h2 : inv.status ≠ "paid"
        · rw [if_pos h2] at h; cases h
        · rw [if_neg h2] at h
          cases hres : restoreLines s.stocks inv.items with
          | none => rw [hres] at h; cases h
          | some stocks2 =>
            rw [hres] at h
            dsimp only at h
            injection h with h3
            injection h3 with h4 h5
            rw [← h4]
            intro r0 hr0
            exact restoreLines_balanced inv.items s.stocks stocks2 hres hb
              r0 hr0
  · intro sku qty s2 p hp hsome h
    unfold increaseStock at h
    rw [hp] at h
    dsimp only at h
    injection h with h3
    rw [← h3]
    intro r hr
    unfold stockUpsert at hr
    dsimp only at hr
    cases hfind : s.stocks.find? (fun r0 => r0.productId = p.id) with
    | none =>
      unfold findStockByPid at hsome
      rw [hfind] at hsome
      cases hsome
    | some r0 =>
      rw [hfind] at hr
      refine updateStockRows_balanced s.stocks p.id _ ?_ hb r hr
      intro r1 hr1
      unfold balanced at hr1 ⊢
      simp only
      omega

/-- The store after receiving 50 units into the row-less demo store. -/
def receivedDemoStore : Store :=
  { products := [bisParProduct],
    stocks := [{ productId := 1, quantity := 50, receivedTotal := 50,
                 soldTotal := 0, lastReceivedAt := some 7 }],
    invoices := [] }

/-- Witness for the amended claim C4: the goods-receipt scenario of the
spec, applied to the balanced demo store. -/
theorem stock_balance_preserved_witness : allBalanced receivedDemoStore :=
  (stock_balance_preserved demoStoreNoRow (by decide)).1 "BISPAR800G" 50 7
    receivedDemoStore
    { productId := 1, quantity := 50, receivedTotal := 50, soldTotal := 0,
      lastReceivedAt := some 7 } rfl

/-- Claim C8: `receiveStock` rejects non-positive quantities, unknown
SKUs and inactive products; otherwise it creates the stock row with
`quantity = receivedTotal = qty, soldTotal = 0` and a receipt timestamp
when absent, and increments `quantity` and `receivedTotal` by `qty`
(leaving `soldTotal` unchanged, stamping `lastReceivedAt`) when present. -/
theorem receiveStock_spec (s : Store) (sku : String) (qty : Int)
    (now : Nat) :
    (qty ≤ 0 → receiveStock s sku qty now = .error .invalidQuantity) ∧
    (0 < qty → findProductBySku s sku = none →
      receiveStock s sku qty now = .error (.productNotFound sku)) ∧
    (∀ p, 0 < qty → findProductBySku s sku = some p → p.active = false →
      receiveStock s sku qty now = .error (.inactiveProduct sku)) ∧
    (∀ p, 0 < qty → findProductBySku s sku = some p → p.active = true →
      findStockByPid s p.id = none →
      ∃ s2 row, receiveStock s sku qty now = .ok (s2, row) ∧
        row.productId = p.id ∧ row.quantity = qty ∧
        row.receivedTotal = qty ∧ row.soldTotal = 0 ∧
        row.lastReceivedAt = some now ∧
        s2.products = s.products ∧ s2.invoices = s.invoices ∧
        s2.stocks = s.stocks ++ [row]) ∧
    (∀ p row0, 0 < qty → findProductBySku s sku = some p →
      p.active = true → findStockByPid s p.id = some row0 →
      ∃ s2 row, receiveStock s sku qty now = .ok (s2, row) ∧
        row.quantity = row0.quantity + qty ∧
        row.receivedTotal = row0.receivedTotal + qty ∧
        row.soldTotal = row0.soldTotal ∧
        row.lastReceivedAt = some now ∧
        s2.products = s.products ∧ s2.invoices = s.invoices ∧
        s2.stocks = s.stocks.map (fun r =>
          if r.productId = p.id then
            { r with quantity := r.quantity + qty,
                     receivedTotal := r.receivedTotal + qty,
                     lastReceivedAt := some now }
          else r)) := by
  refine ⟨?_, ?_, ?_, ?_, ?_⟩
  · intro hle
    unfold receiveStock
    rw [if_pos hle]
  · intro hpos hnone
    unfold receiveStock
    rw [if_neg (by omega), hnone]
  · intro p hpos hp hact
    unfold receiveStock
    rw [if_neg (by omega), hp]
    dsimp only
    rw [if_pos hact]
  · intro p hpos hp hact hnone
    have hfind : s.stocks.find? (fun r => r.productId = p.id) = none := hnone
    unfold receiveStock
    rw [if_neg (by omega), hp]
    dsimp only
    rw [if_neg (by simp [hact])]
    unfold stockUpsert
    rw [hfind]
    dsimp only
    unfold findStockByPid
    dsimp only
    rw [find?_append_none _ _ hfind,
        List.find?_cons_of_pos _ (by simp)]
    dsimp only
    refine ⟨_, _, rfl, rfl, rfl, rfl, rfl, rfl, rfl, rfl, rfl⟩
  · intro p row0 hpos hp hact hrow
    have hfind : s.stocks.find? (fun r => r.productId = p.id) = some row0 :=
      hrow
    have hpid : row0.productId = p.id := by
      have := List.find?_some hfind
      simpa using this
    unfold receiveStock
    rw [if_neg (by omega), hp]
    dsimp only
    rw [if_neg (by simp [hact])]
    unfold stockUpsert
    rw [hfind]
    dsimp only
    unfold findStockByPid
    dsimp only
    rw [find?_updateStockRows s.stocks p.id p.id
          (fun r => { r with quantity := r.quantity + qty,
                             receivedTotal := r.receivedTotal + qty,
                             lastReceivedAt := some now })
          (fun r => rfl), hfind]
    rw [Option.map_some']
    rw [if_pos hpid]
    refine ⟨_, _, rfl, rfl, rfl, rfl, rfl, rfl, rfl, rfl⟩

/-- Witness for claim C8: the goods-receipt scenario of the spec — 50
units received against a SKU with no stock row creates (50, 50, 0). -/
theorem receiveStock_spec_witness :
    ∃ s2 row, receiveStock demoStoreNoRow "BISPAR800G" 50 7 =
        .ok (s2, row) ∧
      row.productId = 1 ∧ row.quantity = 50 ∧ row.receivedTotal = 50 ∧
      row.soldTotal = 0 ∧ row.lastReceivedAt = some 7 ∧
      s2.products = demoStoreNoRow.products ∧
      s2.invoices = demoStoreNoRow.invoices ∧
      s2.stocks = demoStoreNoRow.stocks ++ [row] :=
  (receiveStock_spec demoStoreNoRow "BISPAR800G" 50 7).2.2.2.1
    bisParProduct (by decide) rfl rfl rfl

/-- Claim C9: the checkout route rejects an empty cart, a missing payment
method, an empty SKU or a non-positive quantity with HTTP 400 before the
billing service runs, leaving the store untouched. -/
theorem checkout_validation_rejected (s : Store)
    (items : List CheckoutItem) (pm key : String) (now : Nat)
    (hbad : items = [] ∨ pm = "" ∨
      ∃ it ∈ items, it.sku = "" ∨ it.qty ≤ 0) :
    checkoutHandler s items pm key now =
      { httpStatus := 400, store := s, response := none } := by
  unfold checkoutHandler
  by_cases h1 : items = []
  · rw [if_pos h1]
  · rw [if_neg h1]
    by_cases h2 : pm = ""
    · rw [if_pos h2]
    · rw [if_neg h2]
      have h3 : checkoutItemsWellFormed items = false := by
        rcases hbad with hb | hb | ⟨it, hmem, hbadit⟩
        · exact absurd hb h1
        · exact absurd hb h2
        · unfold checkoutItemsWellFormed
          rw [List.all_eq_false]
          refine ⟨it, hmem, ?_⟩
          rcases hbadit with hs | hq
          · simp [hs]
          · have : ¬ (0 < it.qty) := by omega
            simp [this]
      rw [h3]
      rw [if_pos rfl]

/-- Witness for claim C9: an empty cart is answered with 400 and an
unchanged store. -/
theorem checkout_validation_rejected_witness :
    checkoutHandler demoStore [] "cash" "key-c9" 0 =
      { httpStatus := 400, store := demoStore, response := none } :=
  checkout_validation_rejected demoStore [] "cash" "key-c9" 0 (Or.inl rfl)

/-- Claim C10: `getInvoiceStats` applies the `createdAt` range only when
both bounds are present; with exactly one bound the result equals the
unfiltered (all-time) aggregation and reports the all-time period, and
the all-time aggregation counts every paid invoice, sums their grand
totals, and counts every cancelled invoice. -/
theorem stats_single_bound_ignored (s : Store) (f t : Nat) :
    getInvoiceStats s (some f) none = getInvoiceStats s none none ∧
    getInvoiceStats s none (some t) = getInvoiceStats s none none ∧
    (getInvoiceStats s (some f) none).period = .allTime ∧
    (getInvoiceStats s none (some t)).period = .allTime ∧
    (getInvoiceStats s none none).totalInvoices =
      (s.invoices.filter (fun inv => inv.status = "paid")).length ∧
    (getInvoiceStats s none none).totalRevenue =
      ((s.invoices.filter (fun inv => inv.status = "paid")).map
        (fun inv => inv.grandTotal)).sum ∧
    (getInvoiceStats s none none).cancelledInvoices =
      (s.invoices.filter (fun inv => inv.status = "cancelled")).length := by
  have hfe : ∀ st : String,
      s.invoices.filter (fun inv =>
        decide (inv.status = st) && inDateFilter none none inv) =
      s.invoices.filter (fun inv => inv.status = st) := by
    intro st
    apply List.filter_congr
    intro inv hmem
    simp [inDateFilter]
  refine ⟨rfl, rfl, rfl, rfl, ?_, ?_, ?_⟩
  · simp only [getInvoiceStats, hfe]
  · simp only [getInvoiceStats, hfe]
  · simp only [getInvoiceStats, hfe]

theorem checkStockAvailability_mem (s : Store)
    (items : List CheckoutItem) (item : CheckoutItem)
    (hmem : item ∈ items)
    (hshort : availableQty s item.sku < item.qty) :
    { sku := item.sku, requested := item.qty,
      available := availableQty s item.sku } ∈
      checkStockAvailability s items := by
  induction items with
  | nil => cases hmem
  | cons a rest ih =>
    rcases List.mem_cons.mp hmem with hhd | htl
    · subst hhd
      simp only [checkStockAvailability]
      unfold availableQty at hshort ⊢
      cases hq : getStockBySku s item.sku with
      | none =>
        exact List.mem_cons_self _ _
      | some stock =>
        rw [hq] at hshort
        have hlt : stock.quantity < item.qty := hshort
        dsimp only
        rw [if_pos hlt]
        exact List.mem_cons_self _ _
    · simp only [checkStockAvailability]
      cases hq : getStockBySku s a.sku with
      | none => exact List.mem_cons_of_mem _ (ih htl)
      | some stock =>
        dsimp only
        by_cases hlt : stock.quantity < a.qty
        · rw [if_pos hlt]
          exact List.mem_cons_of_mem _ (ih htl)
        · rw [if_neg hlt]
          exact ih htl

theorem checkStockAvailability_sound (s : Store)
    (items : List CheckoutItem) (hqty : ∀ it ∈ items, 0 < it.qty) :
    ∀ sf ∈ checkStockAvailability s items,
      (⟨sf.sku, sf.requested⟩ : CheckoutItem) ∈ items ∧
      sf.available = availableQty s sf.sku ∧
      sf.available < sf.requested := by
  induction items with
  | nil =>
    intro sf hsf
    simp only [checkStockAvailability] at hsf
    cases hsf
  | cons a rest ih =>
    have hqrest : ∀ it ∈ rest, 0 < it.qty :=
      fun it hmem => hqty it (List.mem_cons_of_mem _ hmem)
    intro sf hsf
    simp only [checkStockAvailability] at hsf
    cases hq : getStockBySku s a.sku with
    | none =>
      rw [hq] at hsf
      dsimp only at hsf
      rcases List.mem_cons.mp hsf with hhd | htl
      · subst hhd
        refine ⟨List.mem_cons_self _ _, ?_, ?_⟩
        · dsimp only
          unfold availableQty
          rw [hq]
        · exact hqty a (List.mem_cons_self _ _)
      · obtain ⟨h1, h2, h3⟩ := ih hqrest sf htl
        exact ⟨List.mem_cons_of_mem _ h1, h2, h3⟩
    | some stock =>
      rw [hq] at hsf
      dsimp only at hsf
      by_cases hlt : stock.quantity < a.qty
      · rw [if_pos hlt] at hsf
        rcases List.mem_cons.mp hsf with hhd | htl
        · subst hhd
          refine ⟨List.mem_cons_self _ _, ?_, ?_⟩
          · dsimp only
            unfold availableQty
            rw [hq]
          · exact hlt
        · obtain ⟨h1, h2, h3⟩ := ih hqrest sf htl
          exact ⟨List.mem_cons_of_mem _ h1, h2, h3⟩
      · rw [if_neg hlt] at hsf
        obtain ⟨h1, h2, h3⟩ := ih hqrest sf hsf
        exact ⟨List.mem_cons_of_mem _ h1, h2, h3⟩

/-- Claim C3: if some cart line requests more than the available quantity
of its SKU (a missing row or unknown product reading as 0), checkout
fails before any mutation with an `InsufficientStock` error whose
shortfall list records that line, and every listed shortfall is a real
cart line with its true availability. -/
theorem checkout_insufficient_rejected (s : Store)
    (items : List CheckoutItem) (pm key : String) (now : Nat)
    (hne : items ≠ []) (hpm : pm ≠ "")
    (hkey : findInvoiceByKey s key = none)
    (hqty : ∀ it ∈ items, 0 < it.qty)
    (item : CheckoutItem) (hmem : item ∈ items)
    (hshort : availableQty s item.sku < item.qty) :
    ∃ shortfalls,
      createInvoice s items pm key now =
        .error (.insufficientStock shortfalls) ∧
      { sku := item.sku, requested := item.qty,
        available := availableQty s item.sku } ∈ shortfalls ∧
      ∀ sf ∈ shortfalls,
        (⟨sf.sku, sf.requested⟩ : CheckoutItem) ∈ items ∧
        sf.available = availableQty s sf.sku ∧
        sf.available < sf.requested := by
  have hmemsf := checkStockAvailability_mem s items item hmem hshort
  have hnonempty : ¬ checkStockAvailability s items = [] := by
    intro hco
    rw [hco] at hmemsf
    cases hmemsf
  refine ⟨checkStockAvailability s items, ?_, hmemsf,
    checkStockAvailability_sound s items hqty⟩
  unfold createInvoice
  rw [if_neg hne, if_neg hpm, hkey]
  dsimp only
  rw [if_neg hnonempty]

/-- Witness for claim C3: the spec scenario — requesting 1000 against 90
on hand fails with the (BISPAR800G, 1000, 90) shortfall. -/
theorem checkout_insufficient_rejected_witness :
    ∃ shortfalls,
      createInvoice demoStore90 [{ sku := "BISPAR800G", qty := 1000 }]
        "cash" "key-c3" 4 = .error (.insufficientStock shortfalls) ∧
      { sku := "BISPAR800G", requested := 1000,
        available := (90 : Int) } ∈ shortfalls ∧
      ∀ sf ∈ shortfalls,
        (⟨sf.sku, sf.requested⟩ : CheckoutItem) ∈
          [({ sku := "BISPAR800G", qty := 1000 } : CheckoutItem)] ∧
        sf.available = availableQty demoStore90 sf.sku ∧
        sf.available < sf.requested :=
  checkout_insufficient_rejected demoStore90
    [{ sku := "BISPAR800G", qty := 1000 }] "cash" "key-c3" 4
    (by decide) (by decide) rfl (by decide)
    { sku := "BISPAR800G", qty := 1000 } (List.mem_cons_self _ _)
    (by decide)

/-- Claim C5: the next invoice number is 1001 on an empty invoice table
and (maximum existing number) + 1 otherwise, so it exceeds every existing
number; a successful new checkout appends exactly one invoice carrying
that number, hence sequential checkouts receive strictly increasing,
pairwise distinct invoice numbers. -/
theorem invoice_numbers_strictly_increase (s : Store) :
    (s.invoices = [] → getNextInvoiceNumber s = 1001) ∧
    (∀ inv ∈ s.invoices, inv.invoiceNumber < getNextInvoiceNumber s) ∧
    (s.invoices ≠ [] → ∃ inv ∈ s.invoices,
      getNextInvoiceNumber s = inv.invoiceNumber + 1) ∧
    (∀ items pm key now s1 r1,
      createInvoice s items pm key now = .ok (s1, r1) →
      r1.newInvoice = true →
      r1.invoiceNumber = getNextInvoiceNumber s ∧
      (∃ newInv, s1.invoices = s.invoices ++ [newInv] ∧
        newInv.invoiceNumber = r1.invoiceNumber ∧
        newInv.idempotencyKey = key) ∧
      ∀ inv ∈ s.invoices, inv.invoiceNumber < r1.invoiceNumber) := by
  refine ⟨?_, ?_, ?_, ?_⟩
  · intro hnil
    unfold getNextInvoiceNumber
    rw [hnil]
    rfl
  · intro inv hmem
    obtain ⟨m, hm, hle⟩ := maxInvoiceNumber_ge s.invoices inv hmem
    unfold getNextInvoiceNumber
    rw [hm]
    dsimp only
    omega
  · intro hne
    cases hl : s.invoices with
    | nil => exact absurd hl hne
    | cons a rest =>
      have hex : ∃ m, maxInvoiceNumber s.invoices = some m := by
        rw [hl]
        simp only [maxInvoiceNumber]
        cases maxInvoiceNumber rest with
        | none => exact ⟨_, rfl⟩
        | some m2 => exact ⟨_, rfl⟩
      obtain ⟨m, hm⟩ := hex
      obtain ⟨inv, hmeminv, heq⟩ := maxInvoiceNumber_mem s.invoices m hm
      refine ⟨inv, hl ▸ hmeminv, ?_⟩
      unfold getNextInvoiceNumber
      rw [hm]
      dsimp only
      rw [heq]
  · intro items pm key now s1 r1 h hnew
    obtain ⟨hne2, hpm2, hkey, hav, its, sub, stocksF, hproc, hs1, hr1⟩ :=
      createInvoice_ok_inversion s items pm key now (s1, r1) h hnew
    have hs1x : s1 = _ := hs1
    have hr1x : r1 = _ := hr1
    refine ⟨congrArg InvoiceResponse.invoiceNumber hr1x,
      ⟨{ id := s.invoices.length,
         invoiceNumber := getNextInvoiceNumber s, subtotal := sub,
         grandTotal := sub, paymentMethod := pm, idempotencyKey := key,
         status := "paid", createdAt := now, items := its },
       congrArg Store.invoices hs1x,
       (congrArg InvoiceResponse.invoiceNumber hr1x).symm, rfl⟩, ?_⟩
    intro inv hmem
    have hlt : inv.invoiceNumber < getNextInvoiceNumber s := by
      obtain ⟨m, hm, hle⟩ := maxInvoiceNumber_ge s.invoices inv hmem
      unfold getNextInvoiceNumber
      rw [hm]
      dsimp only
      omega
    rw [hr1x]
    exact hlt

/-- Witness for claim C5: the empty demo store starts numbering at 1001. -/
theorem invoice_numbers_strictly_increase_witness :
    getNextInvoiceNumber demoStore = 1001 :=
  (invoice_numbers_strictly_increase demoStore).1 rfl

/-- Claim C7: on every newly created invoice each line total is the
sale-time unit price times the quantity, the unit price and name are the
looked-up product's, the subtotal is the sum of the line totals, and the
grand total equals the subtotal. -/
theorem checkout_line_totals (s : Store) (items : List CheckoutItem)
    (pm key : String) (now : Nat) (s1 : Store) (r1 : InvoiceResponse)
    (h : createInvoice s items pm key now = .ok (s1, r1))
    (hnew : r1.newInvoice = true) :
    (∀ it ∈ r1.items, it.lineTotal = it.unitPrice * (it.qty : ℚ) ∧
       ∃ p, findProductBySku s it.sku = some p ∧ it.unitPrice = p.price ∧
         it.productName = p.name) ∧
    r1.subtotal = (r1.items.map (fun it => it.lineTotal)).sum ∧
    r1.grandTotal = r1.subtotal := by
  obtain ⟨hne2, hpm2, hkey, hav, its, sub, stocksF, hproc, hs1, hr1⟩ :=
    createInvoice_ok_inversion s items pm key now (s1, r1) h hnew
  obtain ⟨hitems, hsub⟩ :=
    processLines_items s items s.stocks its sub stocksF hproc
  have hr1x : r1 = _ := hr1
  subst hr1x
  refine ⟨?_, ?_, rfl⟩
  · intro it hit
    simp only [formatInvoiceResponse] at hit
    obtain ⟨it0, hit0, hview⟩ := List.mem_map.mp hit
    obtain ⟨hlt, p, hp, hup, hpn, hpact⟩ := hitems it0 hit0
    subst hview
    exact ⟨hlt, p, hp, hup, hpn⟩
  · simp only [formatInvoiceResponse]
    rw [List.map_map]
    exact hsub

/-- The demo checkout cart. -/
def demoCart : List CheckoutItem := [{ sku := "BISPAR800G", qty := 10 }]

/-- Witness for claim C7 at the demo checkout. -/
theorem checkout_line_totals_witness :
    ∃ s1 r1,
      createInvoice demoStore demoCart "cash" "key-c7" 5 = .ok (s1, r1) ∧
      ((∀ it ∈ r1.items, it.lineTotal = it.unitPrice * (it.qty : ℚ) ∧
          ∃ p, findProductBySku demoStore it.sku = some p ∧
            it.unitPrice = p.price ∧ it.productName = p.name) ∧
        r1.subtotal = (r1.items.map (fun it => it.lineTotal)).sum ∧
        r1.grandTotal = r1.subtotal) :=
  ⟨_, _, rfl, checkout_line_totals demoStore demoCart "cash" "key-c7" 5
    _ _ rfl rfl⟩

/-- Claim C1: replaying checkout with the idempotency key of an already
committed invoice returns that invoice — same invoice number, identical
line items — flagged `newInvoice = false`, and leaves the whole store
(stock table included) exactly as it was: no decrement, no new invoice. -/
theorem checkout_idempotent_replay (s s1 : Store)
    (items items2 : List CheckoutItem) (pm pm2 key : String)
    (now1 now2 : Nat) (r1 : InvoiceResponse)
    (h : createInvoice s items pm key now1 = .ok (s1, r1))
    (hnew : r1.newInvoice = true)
    (hne2 : items2 ≠ []) (hpm2 : pm2 ≠ "") :
    createInvoice s1 items2 pm2 key now2 =
      .ok (s1, { r1 with newInvoice := false }) := by
  obtain ⟨hne, hpm, hkey, hav, its, sub, stocksF, hproc, hs1, hr1⟩ :=
    createInvoice_ok_inversion s items pm key now1 (s1, r1) h hnew
  have hs1x : s1 = _ := hs1
  have hr1x : r1 = _ := hr1
  have hkey0 : s.invoices.find? (fun inv => inv.idempotencyKey = key) =
      none := hkey
  have hfind : findInvoiceByKey s1 key = some
      { id := s.invoices.length, invoiceNumber := getNextInvoiceNumber s,
        subtotal := sub, grandTotal := sub, paymentMethod := pm,
        idempotencyKey := key, status := "paid", createdAt := now1,
        items := its } := by
    rw [hs1x]
    unfold findInvoiceByKey
    dsimp only
    rw [find?_append_none _ _ hkey0]
    rw [List.find?_cons_of_pos _ (by simp)]
  unfold createInvoice
  rw [if_neg hne2, if_neg hpm2, hfind]
  dsimp only
  rw [hr1x]
  rfl

/-- Witness for claim C1: replaying the demo checkout with its key
returns the same invoice and leaves the store untouched. -/
theorem checkout_idempotent_replay_witness :
    ∃ s1 r1,
      createInvoice demoStore demoCart "cash" "key-c1" 5 = .ok (s1, r1) ∧
      createInvoice s1 demoCart "cash" "key-c1" 9 =
        .ok (s1, { r1 with newInvoice := false }) :=
  ⟨_, _, rfl, checkout_idempotent_replay demoStore _ demoCart demoCart
    "cash" "cash" "key-c1" 5 9 _ rfl rfl (by decide) (by decide)⟩

/-- Claim C6: cancel fails `NotFound` when no invoice has the number,
`AlreadyCancelled` when it is already cancelled, and `InvalidState` for
any other non-paid status; on a paid invoice it adds each line's quantity
back to its product's stock row and subtracts it from `soldTotal`, keeps
the items and amounts, marks the invoice cancelled, and a second cancel
of the same number fails `AlreadyCancelled`. -/
theorem cancelInvoice_spec (s : Store) (n : Nat) :
    (findInvoiceByNumber s n = none →
      cancelInvoice s n = .error (.invoiceNotFound n)) ∧
    (∀ inv, findInvoiceByNumber s n = some inv →
      inv.status = "cancelled" →
      cancelInvoice s n = .error (.alreadyCancelled n)) ∧
    (∀ inv, findInvoiceByNumber s n = some inv →
      inv.status ≠ "cancelled" → inv.status ≠ "paid" →
      cancelInvoice s n = .error (.invalidState inv.status)) ∧
    (∀ inv, findInvoiceByNumber s n = some inv → inv.status = "paid" →
      (∀ it ∈ inv.items,
        ((s.stocks.find? (fun r => r.productId = it.productId)).isSome)) →
      (∀ i ∈ s.invoices, i.id = inv.id → i = inv) →
      ∃ s2 r, cancelInvoice s n = .ok (s2, r) ∧
        r.status = "cancelled" ∧ r.invoiceNumber = inv.invoiceNumber ∧
        r.subtotal = inv.subtotal ∧ r.grandTotal = inv.grandTotal ∧
        r.items = (formatInvoiceResponse inv false).items ∧
        s2.stocks = s.stocks.map (fun row =>
          { row with
              quantity :=
                row.quantity + qtySumFor inv.items row.productId,
              soldTotal :=
                row.soldTotal - qtySumFor inv.items row.productId }) ∧
        cancelInvoice s2 n = .error (.alreadyCancelled n)) := by
  refine ⟨?_, ?_, ?_, ?_⟩
  · intro hnone
    unfold cancelInvoice
    rw [hnone]
  · intro inv hfind hst
    unfold cancelInvoice
    rw [hfind]
    dsimp only
    rw [if_pos hst]
  · intro inv hfind hst1 hst2
    unfold cancelInvoice
    rw [hfind]
    dsimp only
    rw [if_neg hst1, if_pos hst2]
  · intro inv hfind hpaid hpres hid
    have hres := restoreLines_eq inv.items s.stocks hpres
    unfold cancelInvoice
    rw [hfind]
    dsimp only
    rw [if_neg (by simp [hpaid]), if_neg (by simp [hpaid]), hres]
    dsimp only
    refine ⟨_, _, rfl, rfl, rfl, rfl, rfl, rfl, rfl, ?_⟩
    have hfind0 : s.invoices.find? (fun i => i.invoiceNumber = n) =
        some inv := hfind
    have hfind2 := find?_invoices_after_cancel s.invoices inv n hfind0 hid
      { inv with status := "cancelled" } rfl
    unfold findInvoiceByNumber
    dsimp only
    rw [hfind2]
    dsimp only
    rw [if_pos rfl]

/-- A committed paid invoice over one 10-unit line of the demo product. -/
def cancelDemoInvoice : Invoice :=
  { id := 0, invoiceNumber := 1001, subtotal := 100, grandTotal := 100,
    paymentMethod := "cash", idempotencyKey := "key-c6", status := "paid",
    createdAt := 5,
    items := [{ productId := 1, sku := "BISPAR800G",
                productName := "Parle-G 800g", qty := 10, unitPrice := 10,
                lineTotal := 100 }] }

/-- Store holding that paid invoice with 90 units left on hand. -/
def cancelDemoStore : Store :=
  { products := [bisParProduct],
    stocks := [{ productId := 1, quantity := 90, receivedTotal := 100,
                 soldTotal := 10, lastReceivedAt := some 0 }],
    invoices := [cancelDemoInvoice] }

/-- Witness for claim C6: cancelling the committed demo invoice. -/
theorem cancelInvoice_spec_witness :
    ∃ s2 r, cancelInvoice cancelDemoStore 1001 = .ok (s2, r) ∧
      r.status = "cancelled" ∧
      r.invoiceNumber = cancelDemoInvoice.invoiceNumber ∧
      r.subtotal = cancelDemoInvoice.subtotal ∧
      r.grandTotal = cancelDemoInvoice.grandTotal ∧
      r.items = (formatInvoiceResponse cancelDemoInvoice false).items ∧
      s2.stocks = cancelDemoStore.stocks.map (fun row =>
        { row with
            quantity :=
              row.quantity + qtySumFor cancelDemoInvoice.items
                row.productId,
            soldTotal :=
              row.soldTotal - qtySumFor cancelDemoInvoice.items
                row.productId }) ∧
      cancelInvoice s2 1001 = .error (.alreadyCancelled 1001) :=
  (cancelInvoice_spec cancelDemoStore 1001).2.2.2 cancelDemoInvoice rfl rfl
    (by intro it hit
        rcases List.mem_singleton.mp hit with rfl
        rfl)
    (by intro i hi hh
        rcases List.mem_singleton.mp hi with rfl
        rfl)

end RetailAssist
